import Mathlib

/-!
Verification of the Python binding `src/python/polkadot_verifier.py` of the
polkadot-signature-verifier repository.

A Python `str` is modelled as a list of Unicode code points (`List Nat`);
a Python `bytes` value is modelled as a list of byte values (`List Nat`,
each element < 256).  `str.encode()` (strict UTF-8) and `bytes.decode()`
are embedded faithfully, including their failure modes (`UnicodeEncodeError`
on surrogate code points, `UnicodeDecodeError` on invalid UTF-8), as
`Option`-returning functions.  The native shared library
`libpolkadot_sig_verifier.so` is not part of the Python source; its
foreign-callable surface is modelled from the spec where needed.
-/

/-- Strict UTF-8 encoding of a single code point, as performed by Python's
`str.encode()`: fails (`none` = `UnicodeEncodeError`) on surrogate code
points `0xD800..0xDFFF` and on values outside Unicode range. -/
def utf8EncodeChar (c : Nat) : Option (List Nat) :=
  if c < 0x80 then some [c]
  else if c < 0x800 then some [0xC0 + c / 0x40, 0x80 + c % 0x40]
  else if c < 0xD800 then
    some [0xE0 + c / 0x1000, 0x80 + c / 0x40 % 0x40, 0x80 + c % 0x40]
  else if c < 0xE000 then none
  else if c < 0x10000 then
    some [0xE0 + c / 0x1000, 0x80 + c / 0x40 % 0x40, 0x80 + c % 0x40]
  else if c < 0x110000 then
    some [0xF0 + c / 0x40000, 0x80 + c / 0x1000 % 0x40,
          0x80 + c / 0x40 % 0x40, 0x80 + c % 0x40]
  else none

/-- Python `str.encode()` over a whole string (list of code points):
UTF-8 bytes, or `none` if any code point is not UTF-8-encodable. -/
def strEncode : List Nat → Option (List Nat)
  | [] => some []
  | c :: cs =>
    match utf8EncodeChar c, strEncode cs with
    | some b, some bs => some (b ++ bs)
    | _, _ => none

/-- A Python string all of whose code points are UTF-8-encodable
(no surrogates, within Unicode range). -/
def EncodableStr (s : List Nat) : Prop :=
  ∀ c ∈ s, c < 0xD800 ∨ (0xE000 ≤ c ∧ c < 0x110000)

instance (s : List Nat) : Decidable (EncodableStr s) :=
  List.decidableBAll _ s

/-- One step of strict UTF-8 decoding, as in Python's `bytes.decode()`:
the next code point and the remaining bytes, or `none`
(`UnicodeDecodeError`) on a truncated sequence, bad continuation byte,
overlong encoding, surrogate, or out-of-range value. -/
def utf8DecodeOne : List Nat → Option (Nat × List Nat)
  | [] => none
  | b0 :: rest =>
    if b0 < 0x80 then some (b0, rest)
    else if b0 < 0xC2 then none
    else if b0 < 0xE0 then
      match rest with
      | c1 :: rest2 =>
        if 0x80 ≤ c1 ∧ c1 < 0xC0 then
          some ((b0 - 0xC0) * 0x40 + (c1 - 0x80), rest2)
        else none
      | [] => none
    else if b0 < 0xF0 then
      match rest with
      | c1 :: c2 :: rest3 =>
        if (0x80 ≤ c1 ∧ c1 < 0xC0) ∧ (0x80 ≤ c2 ∧ c2 < 0xC0)
            ∧ (b0 ≠ 0xE0 ∨ 0xA0 ≤ c1) ∧ (b0 ≠ 0xED ∨ c1 < 0xA0) then
          some ((b0 - 0xE0) * 0x1000 + (c1 - 0x80) * 0x40 + (c2 - 0x80),
                rest3)
        else none
      | _ => none
    else if b0 < 0xF5 then
      match rest with
      | c1 :: c2 :: c3 :: rest4 =>
        if (0x80 ≤ c1 ∧ c1 < 0xC0) ∧ (0x80 ≤ c2 ∧ c2 < 0xC0)
            ∧ (0x80 ≤ c3 ∧ c3 < 0xC0)
            ∧ (b0 ≠ 0xF0 ∨ 0x90 ≤ c1) ∧ (b0 ≠ 0xF4 ∨ c1 < 0x90) then
          some ((b0 - 0xF0) * 0x40000 + (c1 - 0x80) * 0x1000
                + (c2 - 0x80) * 0x40 + (c3 - 0x80), rest4)
        else none
      | _ => none
    else none

/-- Iterated UTF-8 decoding; `fuel` bounds the number of decoded code
points.  Each `utf8DecodeOne` step consumes at least one byte, so fuel
equal to the byte length never runs out. -/
def utf8DecodeLoop : Nat → List Nat → Option (List Nat)
  | _, [] => some []
  | 0, _ :: _ => none
  | fuel + 1, b0 :: rest =>
    match utf8DecodeOne (b0 :: rest) with
    | none => none
    | some (c, rem) => (utf8DecodeLoop fuel rem).map (fun t => c :: t)

/-- Python `bytes.decode()` (strict UTF-8 decoding): code points, or `none`
(`UnicodeDecodeError`) on invalid UTF-8. -/
def utf8Decode (b : List Nat) : Option (List Nat) :=
  utf8DecodeLoop b.length b

/-- Modelled from the spec (§6, not under src/): the native side receives
null-terminated byte strings, so each argument is truncated at its first
null byte before the native code sees it. -/
def cstr (b : List Nat) : List Nat :=
  b.takeWhile (fun x => x ≠ 0)

/-- The code points of the literal `"<Bytes>"` used by the f-string
`f"<Bytes>{message}</Bytes>"` in `verify`. -/
def openTagCp : List Nat := [60, 66, 121, 116, 101, 115, 62]

/-- The code points of the literal `"</Bytes>"` used by the f-string
`f"<Bytes>{message}</Bytes>"` in `verify`. -/
def closeTagCp : List Nat := [60, 47, 66, 121, 116, 101, 115, 62]

/-- `wrapped_message = f"<Bytes>{message}</Bytes>"` from `verify`
(string-level concatenation). -/
def wrapStr (message : List Nat) : List Nat :=
  openTagCp ++ message ++ closeTagCp

/-- The three `bytes` arguments the Python `verify` passes to
`lib.verify_polkadot_signature`: `address.encode()`, `signature.encode()`,
`wrapped_message.encode()`; `none` models a `UnicodeEncodeError` escaping
`verify`. -/
def facadeCallBytes (address signature message : List Nat) :
    Option (List Nat × List Nat × List Nat) :=
  let wrapped_message := wrapStr message
  match strEncode address, strEncode signature, strEncode wrapped_message with
  | some a, some s, some m => some (a, s, m)
  | _, _, _ => none

/-- The Python facade `verify(address, signature, message)`:
wraps, encodes, calls the native function (whose arguments are truncated
at the first null byte per the spec's FFI contract) and returns
`result == 1`.  `native` stands for the loaded
`lib.verify_polkadot_signature` (a `uint8`-returning function);
`none` models an exception escaping `verify`. -/
def verify (native : List Nat → List Nat → List Nat → Nat)
    (address signature message : List Nat) : Option Bool :=
  (facadeCallBytes address signature message).map
    (fun args => native (cstr args.1) (cstr args.2.1) (cstr args.2.2) == 1)

/-- Modelled from the spec (§6, not under src/): the native
`verify_polkadot_signature` returns the uint8 `1` when the signature is
valid and `0` for an invalid signature or any internal error; `valid`
abstracts the SR25519 verification pipeline over the received C strings. -/
def verify_polkadot_signature
    (valid : List Nat → List Nat → List Nat → Bool)
    (a s m : List Nat) : Nat :=
  if valid a s m then 1 else 0

/-- The state of the Python process visible to the module: the loaded
native functions (`lib`), the static byte string the native `get_version`
points to (modelled from the spec §6/§9: a process-wide static string),
and all other program state `rest`. -/
structure PyState (σ : Type) where
  native : List Nat → List Nat → List Nat → Nat
  nativeVersion : List Nat
  rest : σ

/-- A call of the Python `verify` as a state transformer: the body only
reads the module global `lib`; it assigns no global or nonlocal name. -/
def verifyCall {σ : Type} (st : PyState σ) (address signature message : List Nat) :
    Option Bool × PyState σ :=
  (verify st.native address signature message, st)

/-- The Python `get_version()`: calls the native accessor (ctypes converts
the returned `char*` to the bytes before the first null) and decodes it;
`none` models a `UnicodeDecodeError`. -/
def get_version {σ : Type} (st : PyState σ) : Option (List Nat) × PyState σ :=
  (utf8Decode (cstr st.nativeVersion), st)

theorem utf8EncodeChar_isSome (c : Nat)
    (h : c < 0xD800 ∨ (0xE000 ≤ c ∧ c < 0x110000)) :
    ∃ b, utf8EncodeChar c = some b := by
  unfold utf8EncodeChar
  split
  · exact ⟨_, rfl⟩
  · split
    · exact ⟨_, rfl⟩
    · split
      · exact ⟨_, rfl⟩
      · split
        · exfalso; omega
        · split
          · exact ⟨_, rfl⟩
          · split
            · exact ⟨_, rfl⟩
            · exfalso; omega

theorem strEncode_isSome (s : List Nat) (h : EncodableStr s) :
    ∃ b, strEncode s = some b := by
  induction s with
  | nil => exact ⟨[], rfl⟩
  | cons c cs ih =>
    obtain ⟨b, hb⟩ := utf8EncodeChar_isSome c (h c (List.mem_cons_self c cs))
    obtain ⟨bs, hbs⟩ := ih (fun x hx => h x (List.mem_cons_of_mem _ hx))
    exact ⟨b ++ bs, by simp [strEncode, hb, hbs]⟩

theorem strEncode_append (x y : List Nat) (xb yb : List Nat)
    (hx : strEncode x = some xb) (hy : strEncode y = some yb) :
    strEncode (x ++ y) = some (xb ++ yb) := by
  induction x generalizing xb with
  | nil =>
    simp only [strEncode] at hx
    cases hx
    simpa using hy
  | cons c cs ih =>
    simp only [strEncode] at hx
    cases hec : utf8EncodeChar c with
    | none => rw [hec] at hx; simp at hx
    | some b =>
      cases hcs : strEncode cs with
      | none => rw [hec, hcs] at hx; simp at hx
      | some bs =>
        rw [hec, hcs] at hx
        simp only [Option.some.injEq] at hx
        subst hx
        simp [strEncode, hec, ih bs hcs, List.append_assoc]

theorem strEncode_append_split (x y w : List Nat)
    (h : strEncode (x ++ y) = some w) :
    ∃ xb yb, strEncode x = some xb ∧ strEncode y = some yb ∧ w = xb ++ yb := by
  induction x generalizing w with
  | nil => exact ⟨[], w, rfl, by simpa using h, by simp⟩
  | cons c cs ih =>
    simp only [List.cons_append, strEncode, List.append_eq] at h
    cases hec : utf8EncodeChar c with
    | none => rw [hec] at h; simp at h
    | some b =>
      cases hcy : strEncode (cs ++ y) with
      | none => rw [hec, hcy] at h; simp at h
      | some bs =>
        rw [hec, hcy] at h
        simp only [Option.some.injEq] at h
        obtain ⟨xb, yb, h1, h2, h3⟩ := ih bs hcy
        refine ⟨b ++ xb, yb, ?_, h2, ?_⟩
        · simp [strEncode, hec, h1]
        · rw [← h, h3, List.append_assoc]

theorem cstr_eq_self (b : List Nat) (h : ∀ x ∈ b, x ≠ 0) : cstr b = b := by
  unfold cstr
  rw [List.takeWhile_eq_self_iff]
  intro x hx
  simpa using h x hx

theorem cstr_append_null (pre post : List Nat) (h : ∀ x ∈ pre, x ≠ 0) :
    cstr (pre ++ 0 :: post) = pre := by
  induction pre with
  | nil => simp [cstr]
  | cons a ps ih =>
    have ha := h a (List.mem_cons_self a ps)
    have hps := ih (fun x hx => h x (List.mem_cons_of_mem _ hx))
    simp only [cstr, ne_eq, decide_not, List.cons_append,
      List.takeWhile_cons] at hps ⊢
    simp [ha, hps]

theorem mem_of_mem_cstr {x : Nat} {b : List Nat} (h : x ∈ cstr b) : x ∈ b := by
  induction b with
  | nil => simp [cstr] at h
  | cons a bs ih =>
    simp only [cstr, List.takeWhile_cons] at h
    by_cases ha : a = 0
    · simp [ha] at h
    · simp only [ha, decide_False, decide_not, Bool.not_false,
        if_true, List.mem_cons] at h
      rcases h with h | h
      · exact h ▸ List.mem_cons_self a bs
      · exact List.mem_cons_of_mem _
          (ih (by simpa only [cstr, ne_eq, decide_not] using h))

theorem utf8DecodeOne_ascii (a : Nat) (bs : List Nat) (ha : a < 0x80) :
    utf8DecodeOne (a :: bs) = some (a, bs) := by
  rw [utf8DecodeOne.eq_def]
  simp only [if_pos ha]

theorem utf8DecodeLoop_ascii (b : List Nat) (h : ∀ x ∈ b, x < 0x80) :
    ∀ fuel, b.length ≤ fuel → utf8DecodeLoop fuel b = some b := by
  induction b with
  | nil => intro fuel _; cases fuel <;> rfl
  | cons a bs ih =>
    intro fuel hf
    match fuel with
    | f + 1 =>
      have h1 : utf8DecodeOne (a :: bs) = some (a, bs) :=
        utf8DecodeOne_ascii a bs (h a (List.mem_cons_self a bs))
      have h2 : utf8DecodeLoop f bs = some bs :=
        ih (fun x hx => h x (List.mem_cons_of_mem _ hx)) f
          (by simp at hf; omega)
      rw [utf8DecodeLoop, h1]
      simp [h2]

theorem utf8Decode_ascii (b : List Nat) (h : ∀ x ∈ b, x < 0x80) :
    utf8Decode b = some b :=
  utf8DecodeLoop_ascii b h b.length le_rfl

theorem strEncode_wrap (message mB : List Nat)
    (h : strEncode message = some mB) :
    strEncode (wrapStr message) = some (openTagCp ++ mB ++ closeTagCp) := by
  have hopen : strEncode openTagCp = some openTagCp := by decide
  have hclose : strEncode closeTagCp = some closeTagCp := by decide
  have h1 := strEncode_append message closeTagCp mB closeTagCp h hclose
  have h2 := strEncode_append openTagCp (message ++ closeTagCp)
    openTagCp (mB ++ closeTagCp) hopen h1
  simpa [wrapStr, List.append_assoc] using h2

theorem facadeCallBytes_eq (address signature message : List Nat)
    (aB sB mB : List Nat)
    (ha : strEncode address = some aB) (hs : strEncode signature = some sB)
    (hm : strEncode message = some mB) :
    facadeCallBytes address signature message
      = some (aB, sB, openTagCp ++ mB ++ closeTagCp) := by
  have hw := strEncode_wrap message mB hm
  simp [facadeCallBytes, ha, hs, hw]

theorem facadeCallBytes_inv (address signature message : List Nat)
    (args : List Nat × List Nat × List Nat)
    (h : facadeCallBytes address signature message = some args) :
    ∃ aB sB mB, strEncode address = some aB ∧ strEncode signature = some sB
      ∧ strEncode message = some mB
      ∧ args = (aB, sB, openTagCp ++ mB ++ closeTagCp) := by
  simp only [facadeCallBytes] at h
  cases ha : strEncode address with
  | none => rw [ha] at h; simp at h
  | some aB =>
    cases hs : strEncode signature with
    | none => rw [ha, hs] at h; simp at h
    | some sB =>
      cases hw : strEncode (wrapStr message) with
      | none => rw [ha, hs, hw] at h; simp at h
      | some w =>
        rw [ha, hs, hw] at h
        simp only [Option.some.injEq] at h
        obtain ⟨ob, rest1, hob, hrest1, hw1⟩ :=
          strEncode_append_split openTagCp (message ++ closeTagCp) w
            (by simpa [wrapStr] using hw)
        obtain ⟨mB, cb, hmB, hcb, hrest⟩ :=
          strEncode_append_split message closeTagCp rest1 hrest1
        have hopen : strEncode openTagCp = some openTagCp := by decide
        have hclose : strEncode closeTagCp = some closeTagCp := by decide
        rw [hopen] at hob
        injection hob with hob2
        subst hob2
        rw [hclose] at hcb
        injection hcb with hcb2
        subst hcb2
        exact ⟨aB, sB, mB, rfl, rfl, hmB,
          by rw [← h, hw1, hrest, List.append_assoc]⟩

/-- C1 fails as stated: the Python string consisting of the single lone
surrogate code point U+D800 is a legitimate Python `str`, but
`address.encode()` raises `UnicodeEncodeError` on it, which propagates out
of `verify` (modelled as `none`), so `verify` does not return a boolean on
every string triple. -/
theorem C1_counterexample :
    verify (fun _ _ _ => 0) [0xD800] [] [] = none := rfl

/-- C1 (amended): for every triple of Python strings all of whose code
points are UTF-8-encodable (no surrogate code points, all within Unicode
range), `verify` returns a boolean and no error of any internal stage
propagates across the external boundary, whatever the native verifier
returns. -/
theorem C1_verify_total_on_encodable
    (native : List Nat → List Nat → List Nat → Nat)
    (address signature message : List Nat)
    (ha : EncodableStr address) (hs : EncodableStr signature)
    (hm : EncodableStr message) :
    ∃ b : Bool, verify native address signature message = some b := by
  obtain ⟨aB, haB⟩ := strEncode_isSome address ha
  obtain ⟨sB, hsB⟩ := strEncode_isSome signature hs
  obtain ⟨mB, hmB⟩ := strEncode_isSome message hm
  exact ⟨_, by
    rw [verify, facadeCallBytes_eq address signature message aB sB mB haB hsB hmB]
    rfl⟩

theorem C1_witness :
    ∃ b : Bool,
      verify (fun _ _ _ => 1) [104, 105] [48, 120] [104, 101, 108, 108, 111]
        = some b :=
  C1_verify_total_on_encodable (fun _ _ _ => 1) [104, 105] [48, 120]
    [104, 101, 108, 108, 111] (by decide) (by decide) (by decide)

/-- C2: in every verification call that reaches the native call, the
message bytes handed to the native verifier are the UTF-8 bytes of the
message wrapped in the envelope exactly once:
`b"<Bytes>" ++ message.encode() ++ b"</Bytes>"` — never unwrapped and
never wrapped twice. -/
theorem C2_wrap_applied_once
    (address signature message : List Nat)
    (args : List Nat × List Nat × List Nat)
    (h : facadeCallBytes address signature message = some args) :
    ∃ mB, strEncode message = some mB
      ∧ args.2.2 = openTagCp ++ mB ++ closeTagCp := by
  obtain ⟨aB, sB, mB, _, _, hmB, harg⟩ :=
    facadeCallBytes_inv address signature message args h
  exact ⟨mB, hmB, by rw [harg]⟩

theorem C2_witness :
    ∃ mB, strEncode [104, 105] = some mB
      ∧ (([97], [98],
          [60, 66, 121, 116, 101, 115, 62, 104, 105,
           60, 47, 66, 121, 116, 101, 115, 62]) :
          List Nat × List Nat × List Nat).2.2
        = openTagCp ++ mB ++ closeTagCp :=
  C2_wrap_applied_once [97] [98] [104, 105]
    ([97], [98],
     [60, 66, 121, 116, 101, 115, 62, 104, 105,
      60, 47, 66, 121, 116, 101, 115, 62]) (by decide)

/-- C3: with the native `verify_polkadot_signature` modelled from the spec
(returns the uint8 1 exactly when the abstract SR25519 check accepts,
0 for invalid or any error), on every call that reaches the native
function the native result is 1 or 0, it is 1 exactly on acceptance, and
the Python facade returns `True` exactly when that result equals 1 and
`False` otherwise. -/
theorem C3_native_result_convention
    (valid : List Nat → List Nat → List Nat → Bool)
    (address signature message : List Nat)
    (args : List Nat × List Nat × List Nat)
    (h : facadeCallBytes address signature message = some args) :
    (verify_polkadot_signature valid (cstr args.1) (cstr args.2.1)
        (cstr args.2.2) = 1
      ∨ verify_polkadot_signature valid (cstr args.1) (cstr args.2.1)
          (cstr args.2.2) = 0)
    ∧ (verify_polkadot_signature valid (cstr args.1) (cstr args.2.1)
          (cstr args.2.2) = 1
        ↔ valid (cstr args.1) (cstr args.2.1) (cstr args.2.2) = true)
    ∧ (verify (verify_polkadot_signature valid) address signature message
          = some true
        ↔ verify_polkadot_signature valid (cstr args.1) (cstr args.2.1)
            (cstr args.2.2) = 1)
    ∧ (verify (verify_polkadot_signature valid) address signature message
          = some false
        ↔ verify_polkadot_signature valid (cstr args.1) (cstr args.2.1)
            (cstr args.2.2) ≠ 1) := by
  rw [verify, h]
  by_cases hv : valid (cstr args.1) (cstr args.2.1) (cstr args.2.2) = true
  · simp [verify_polkadot_signature, hv]
  · simp [verify_polkadot_signature, hv]

theorem C3_witness :
    (verify_polkadot_signature (fun _ _ _ => true) (cstr [97]) (cstr [98])
        (cstr (openTagCp ++ [99] ++ closeTagCp)) = 1
      ∨ verify_polkadot_signature (fun _ _ _ => true) (cstr [97]) (cstr [98])
          (cstr (openTagCp ++ [99] ++ closeTagCp)) = 0)
    ∧ (verify_polkadot_signature (fun _ _ _ => true) (cstr [97]) (cstr [98])
          (cstr (openTagCp ++ [99] ++ closeTagCp)) = 1
        ↔ (fun _ _ _ => true : List Nat → List Nat → List Nat → Bool)
            (cstr [97]) (cstr [98]) (cstr (openTagCp ++ [99] ++ closeTagCp))
            = true)
    ∧ (verify (verify_polkadot_signature (fun _ _ _ => true)) [97] [98] [99]
          = some true
        ↔ verify_polkadot_signature (fun _ _ _ => true) (cstr [97])
            (cstr [98]) (cstr (openTagCp ++ [99] ++ closeTagCp)) = 1)
    ∧ (verify (verify_polkadot_signature (fun _ _ _ => true)) [97] [98] [99]
          = some false
        ↔ verify_polkadot_signature (fun _ _ _ => true) (cstr [97])
            (cstr [98]) (cstr (openTagCp ++ [99] ++ closeTagCp)) ≠ 1) :=
  C3_native_result_convention (fun _ _ _ => true) [97] [98] [99]
    ([97], [98], openTagCp ++ [99] ++ closeTagCp) (by decide)

/-- C4: the message wrapper is a pure total function: for every message it
returns exactly the opening tag, the message, and the closing tag
concatenated, and on "hello" it yields exactly "<Bytes>hello</Bytes>". -/
theorem C4_wrap_pure_concat :
    (∀ message : List Nat, wrapStr message = openTagCp ++ message ++ closeTagCp)
    ∧ wrapStr [104, 101, 108, 108, 111]
        = [60, 66, 121, 116, 101, 115, 62, 104, 101, 108, 108, 111,
           60, 47, 66, 121, 116, 101, 115, 62] :=
  ⟨fun _ => rfl, by decide⟩

/-- C5: verify is deterministic and idempotent: running the same call a
second time, from the state the first call left behind, with the identical
input triple, produces the identical boolean result. -/
theorem C5_verify_deterministic (σ : Type) (st : PyState σ)
    (address signature message : List Nat) :
    (verifyCall st address signature message).1
      = (verifyCall (verifyCall st address signature message).2
          address signature message).1 := rfl

/-- C6: an argument byte string with an embedded null byte is received by
the native function truncated at the first null; in particular, when the
encoded message contains a null, the native verifier sees only the opening
tag and the bytes before the null — everything after it, including the
closing tag appended by the wrapper, is not seen. -/
theorem C6_null_byte_truncation :
    (∀ pre post : List Nat, (∀ x ∈ pre, x ≠ 0) →
        cstr (pre ++ 0 :: post) = pre)
    ∧ ∀ (native : List Nat → List Nat → List Nat → Nat)
        (address signature message aB sB pre post : List Nat),
        strEncode address = some aB → strEncode signature = some sB →
        strEncode message = some (pre ++ 0 :: post) →
        (∀ x ∈ pre, x ≠ 0) →
        verify native address signature message
          = some (native (cstr aB) (cstr sB) (openTagCp ++ pre) == 1) := by
  constructor
  · exact cstr_append_null
  · intro native address signature message aB sB pre post ha hs hm hpre
    rw [verify, facadeCallBytes_eq address signature message aB sB _ ha hs hm]
    have htag : ∀ x ∈ openTagCp, x ≠ 0 := by decide
    have hmsg : cstr (openTagCp ++ (pre ++ 0 :: post) ++ closeTagCp)
        = openTagCp ++ pre := by
      have hrearr : openTagCp ++ (pre ++ 0 :: post) ++ closeTagCp
          = (openTagCp ++ pre) ++ 0 :: (post ++ closeTagCp) := by
        simp
      rw [hrearr]
      apply cstr_append_null
      intro x hx
      rcases List.mem_append.mp hx with hx | hx
      · exact htag x hx
      · exact hpre x hx
    simp only [Option.map_some', hmsg]

theorem C6_witness :
    cstr ([7, 8] ++ 0 :: [9]) = [7, 8]
    ∧ verify (fun _ _ _ => 1) [97] [98] [104, 0, 105]
        = some (((fun _ _ _ => 1) : List Nat → List Nat → List Nat → Nat)
            (cstr [97]) (cstr [98]) (openTagCp ++ [104]) == 1) :=
  ⟨C6_null_byte_truncation.1 [7, 8] [9] (by decide),
   C6_null_byte_truncation.2 (fun _ _ _ => 1) [97] [98] [104, 0, 105]
     [97] [98] [104] [105] (by decide) (by decide) (by decide) (by decide)⟩

/-- C7: with the native get_version modelled from the spec as a
process-wide static (here: ASCII) byte string, the Python `get_version`
takes no input other than the process state, never fails, leaves the state
unchanged, and returns the same string on every call — also after an
interleaved `verify` call or a repeated `get_version` call. -/
theorem C7_get_version_static (σ : Type) (st : PyState σ)
    (address signature message : List Nat)
    (h : ∀ x ∈ st.nativeVersion, x < 0x80) :
    ∃ v, get_version st = (some v, st)
      ∧ (get_version ((verifyCall st address signature message).2)).1 = some v
      ∧ (get_version ((get_version st).2)).1 = some v := by
  have hascii : ∀ x ∈ cstr st.nativeVersion, x < 0x80 :=
    fun x hx => h x (mem_of_mem_cstr hx)
  have hdec : utf8Decode (cstr st.nativeVersion)
      = some (cstr st.nativeVersion) := utf8Decode_ascii _ hascii
  refine ⟨cstr st.nativeVersion, ?_, ?_, ?_⟩ <;>
    simp [get_version, verifyCall, hdec]

theorem C7_witness :
    ∃ v, get_version (PyState.mk (fun _ _ _ => 0) [49, 46, 48, 46, 48] ())
        = (some v, PyState.mk (fun _ _ _ => 0) [49, 46, 48, 46, 48] ())
      ∧ (get_version ((verifyCall
            (PyState.mk (fun _ _ _ => 0) [49, 46, 48, 46, 48] ())
            [] [] []).2)).1 = some v
      ∧ (get_version ((get_version
            (PyState.mk (fun _ _ _ => 0) [49, 46, 48, 46, 48] ())).2)).1
          = some v :=
  C7_get_version_static Unit
    (PyState.mk (fun _ _ _ => 0) [49, 46, 48, 46, 48] ()) [] [] []
    (by decide)

/-- C8: a verification call is stateless and side-effect-free: it leaves
the program state exactly as it was, and its result depends only on the
input triple and the loaded native function — two states agreeing on the
native function (whatever their version string or remaining program state)
give identical results, so nothing computed in one call is observable in a
later one. -/
theorem C8_stateless_frame (σ σ' : Type) (st : PyState σ) (st' : PyState σ')
    (address signature message : List Nat)
    (h : st.native = st'.native) :
    (verifyCall st address signature message).2 = st
    ∧ (verifyCall st address signature message).1
        = (verifyCall st' address signature message).1 :=
  ⟨rfl, by simp only [verifyCall]; rw [h]⟩

theorem C8_witness :
    (verifyCall (PyState.mk (fun _ _ _ => 1) [] ()) [104] [105] [106]).2
        = PyState.mk (fun _ _ _ => 1) [] ()
    ∧ (verifyCall (PyState.mk (fun _ _ _ => 1) [] ()) [104] [105] [106]).1
        = (verifyCall (PyState.mk (fun _ _ _ => 1) [49] ())
            [104] [105] [106]).1 :=
  C8_stateless_frame Unit Unit (PyState.mk (fun _ _ _ => 1) [] ())
    (PyState.mk (fun _ _ _ => 1) [49] ()) [104] [105] [106] rfl

/-- C9: for every message whose code points are all UTF-8-encodable,
encoding the string-level wrap equals the byte-level wrap of the encoded
message: ("<Bytes>" + m + "</Bytes>").encode() =
b"<Bytes>" + m.encode() + b"</Bytes>". -/
theorem C9_encode_commutes_with_wrap (message mB : List Nat)
    (h : strEncode message = some mB) :
    strEncode (wrapStr message) = some (openTagCp ++ mB ++ closeTagCp) :=
  strEncode_wrap message mB h

theorem C9_witness :
    strEncode (wrapStr [104, 105])
      = some (openTagCp ++ [104, 105] ++ closeTagCp) :=
  C9_encode_commutes_with_wrap [104, 105] [104, 105] (by decide)

/-- C10: whenever the native call returns any value other than exactly 1
(0, or any of 2..255, or any other number), the Python facade returns
False — never True and never an error. -/
theorem C10_non_one_maps_to_false
    (native : List Nat → List Nat → List Nat → Nat)
    (address signature message : List Nat)
    (args : List Nat × List Nat × List Nat)
    (h : facadeCallBytes address signature message = some args)
    (hne : native (cstr args.1) (cstr args.2.1) (cstr args.2.2) ≠ 1) :
    verify native address signature message = some false := by
  rw [verify, h]
  simp [hne]

theorem C10_witness :
    verify (fun _ _ _ => 7) [100] [101] [102] = some false :=
  C10_non_one_maps_to_false (fun _ _ _ => 7) [100] [101] [102]
    ([100], [101], openTagCp ++ [102] ++ closeTagCp) (by decide) (by decide)
